import Mathlib

/-!
# SuperCmd command registry — a shallow embedding

This file embeds the command-registry module of the SuperCmd launcher
(application / System-Settings discovery, name normalization, icon
extraction, TTL cache, command execution) as executable Lean definitions,
and proves the specification's testable properties about them.

Modelling conventions, used throughout:

* JavaScript strings are Lean `String`s; the JS string operations used by
  the source (`endsWith`, `includes`, `toLowerCase`, `replace` with the
  specific regexes appearing in the source, `trim`, `Buffer.toString('base64')`,
  Node's `path.basename(p, ext)` and `path.join`) are defined below on the
  underlying character lists, mirroring their JS semantics.
* The outside world (filesystem, `child_process.exec`, `plutil` JSON output,
  Electron's `app.getFileIcon`) is a record `Env` of pure functions:
  `none` / `false` models a thrown error or failed invocation.
  Fallible JS code (`try`/`catch`) becomes a `match` on these options.
* The module-level mutable state (`cachedCommands`, `cacheTimestamp`,
  `iconCounter`) is an explicit `RegState` threaded through the API;
  `Date.now()` is an explicit `now : Nat` argument.
* The source processes batch items with `Promise.all` under Node's
  single-threaded cooperative scheduler: every dedup check-then-insert is
  adjacent (no `await` between them) and `Promise.all` preserves list
  order, so each discovery phase is embedded as a sequential fold in list
  order; `Promise.all([discoverApplications(), discoverSystemSettings()])`
  is embedded as the two flows run in sequence.  Only the values of the
  shared `iconCounter` (used to name temporary files) depend on the
  interleaving; no theorem below depends on those values.
* `title.localeCompare` is modelled by the code-point order `≤` on
  `String`: both are total preorders on strings, and nothing below depends
  on where a specific pair of titles falls.
-/

namespace SuperCmd

/-! ## JS string primitives -/

/-- JS `s.endsWith(suffix)`. -/
def strEndsWith (s suf : String) : Bool := suf.data.isSuffixOf s.data

/-- JS `s.startsWith(pre)`. -/
def strStartsWith (s pre : String) : Bool := pre.data.isPrefixOf s.data

/-- JS `s.toLowerCase()` (ASCII, which covers every string the module builds). -/
def strToLower (s : String) : String := ⟨s.data.map Char.toLower⟩

/-- Drop the last `n` characters of `s`. -/
def strDropRight (s : String) (n : Nat) : String := ⟨s.data.take (s.data.length - n)⟩

/-- JS `s.includes(sub)`. -/
def strIncludes (s sub : String) : Bool := decide (sub.data <:+: s.data)

def isWhitespace (c : Char) : Bool := c = ' ' ∨ c = '\t' ∨ c = '\n' ∨ c = '\r'

/-- JS `s.trim()` (the module only ever produces ASCII whitespace). -/
def strTrim (s : String) : String :=
  ⟨((s.data.dropWhile isWhitespace).reverse.dropWhile isWhitespace).reverse⟩

/-- Node `path.join(a, b)` for the shapes used by the source
(no trailing slashes, `path.join('', b) = b`). -/
def joinPath (a b : String) : String := if a = "" then b else a ++ "/" ++ b

/-- Node `path.basename(name, ext)` for a slash-free `name`: the extension is
stripped only when it is a proper suffix (`path.basename('.app', '.app') = '.app'`). -/
def basenameMinus (name ext : String) : String :=
  if strEndsWith name ext ∧ ext.data.length < name.data.length then
    strDropRight name ext.data.length
  else name

def isLowerAZ (c : Char) : Bool := 'a' ≤ c ∧ c ≤ 'z'
def isUpperAZ (c : Char) : Bool := 'A' ≤ c ∧ c ≤ 'Z'
def isDigit09 (c : Char) : Bool := '0' ≤ c ∧ c ≤ '9'

/-- JS `key.replace(/[^a-z0-9]+/g, '-')`: every maximal run of characters
outside `[a-z0-9]` becomes a single `'-'`.  The flag records whether the
previous character belonged to such a run. -/
def slugGo (dash : Bool) : List Char → List Char
  | [] => []
  | c :: rest =>
    if isLowerAZ c ∨ isDigit09 c then c :: slugGo false rest
    else if dash then slugGo true rest
    else '-' :: slugGo true rest

def strSlug (s : String) : String := ⟨slugGo false s.data⟩

/-- The `Buffer.toString('base64')` alphabet. -/
def b64Chars : List Char :=
  "ABCDEFGHIJKLMNOPQRSTUVWXYZabcdefghijklmnopqrstuvwxyz0123456789+/".data

def b64Char (n : Nat) : Char := b64Chars.getD n 'A'

/-- JS `Buffer.toString('base64')` on a byte list. -/
def base64Chunks : List Nat → List Char
  | [] => []
  | [a] => [b64Char (a / 4), b64Char (a % 4 * 16), '=', '=']
  | [a, b] => [b64Char (a / 4), b64Char (a % 4 * 16 + b / 16), b64Char (b % 16 * 4), '=']
  | a :: b :: c :: rest =>
    b64Char (a / 4) :: b64Char (a % 4 * 16 + b / 16) ::
      b64Char (b % 16 * 4 + c / 64) :: b64Char (c % 64) :: base64Chunks rest

/-! ## `cleanPaneName` (the NameNormalizer)

`cleanPaneName` turns `"DateAndTime"` into `"Date & Time"` etc.  The source
is a chain of `String.replace` calls with fixed regexes; each is embedded
as a character-list traversal with the same semantics. -/

/-- One `.replace(/SUF$/, '')` step of the suffix-stripping chain. -/
def stripSuffixStr (suf s : String) : String :=
  if strEndsWith s suf then strDropRight s suf.data.length else s

/-- JS `s.replace(/([a-z])([A-Z])/g, '$1 $2')`: insert a space at each
lowercase→uppercase boundary.  (A match consumes both characters, but the
second is uppercase and a fresh match needs a lowercase first character,
so re-examining it — as this traversal does — changes nothing.) -/
def camelSplit : List Char → List Char
  | a :: b :: rest =>
    if isLowerAZ a ∧ isUpperAZ b then a :: ' ' :: camelSplit (b :: rest)
    else a :: camelSplit (b :: rest)
  | l => l

/-- JS `s.replace(/([A-Z]+)([A-Z][a-z])/g, '$1 $2')`: insert a space before the
last uppercase letter of an uppercase run that is followed by a lowercase
letter ("HTMLParser" → "HTML Parser").  `prevUpper` records whether the
previous (unconsumed) character was uppercase. -/
def acronymSplitGo (prevUpper : Bool) : List Char → List Char
  | b :: c :: rest =>
    if prevUpper ∧ isUpperAZ b ∧ isLowerAZ c then ' ' :: b :: c :: acronymSplitGo false rest
    else b :: acronymSplitGo (isUpperAZ b) (c :: rest)
  | l => l

def isWordChar (c : Char) : Bool := isLowerAZ c ∨ isUpperAZ c ∨ isDigit09 c ∨ c = '_'

/-- A `\b` word boundary holds between the last consumed character and the
head of the remaining list (or the end of the string). -/
def boundaryAt : List Char → Bool
  | [] => true
  | c :: _ => !isWordChar c

/-- JS `s.replace(/\bAnd\b/g, '&')`: replace the standalone word `And`
(both sides at a `\b` word boundary) with `&`.  `prevWord` records whether
the previous character was a word character; after a match the scan resumes
past the original `d`, a word character. -/
def andReplaceGo (prevWord : Bool) : List Char → List Char
  | 'A' :: 'n' :: 'd' :: rest =>
    if !prevWord && boundaryAt rest then '&' :: andReplaceGo true rest
    else 'A' :: andReplaceGo true ('n' :: 'd' :: rest)
  | c :: rest => c :: andReplaceGo (isWordChar c) rest
  | [] => []

/-- The `replacements` table of `cleanPaneName`, in source (insertion) order. -/
def replacementsTable : List (String × String) :=
  [("And", "&"),
   ("Energy Saver", "Energy Saver"),
   ("Print And Fax", "Printers & Fax"),
   ("Print And Scan", "Printers & Scanners"),
   ("Sharing Pref", "Sharing"),
   ("Expose", "Mission Control"),
   ("Universal Access Pref", "Accessibility"),
   ("Localization", "Language & Region"),
   ("Speech", "Siri & Dictation"),
   ("Discs", "Discs Handling"),
   ("Apple ID Pref Pane", "Apple ID"),
   ("Family Sharing Pref Pane", "Family Sharing"),
   ("Class Kit Preference Pane", "Classroom"),
   ("Desktop Screen Effects", "Desktop & Screen Saver"),
   ("Touch ID", "Touch ID & Password"),
   ("Digi Hub", "CDs & DVDs")]

/-- The `for (const [from, to] of Object.entries(replacements))` loop:
substitute on the first exact full-string match, then stop. -/
def applyReplacements (s : String) : String :=
  match replacementsTable.find? (fun p => p.1 == s) with
  | some p => p.2
  | none => s

/-- The normalizer `cleanPaneName`: strip known suffixes, split camel case, replace the
word `And` by `&`, apply the exact-match table, trim. -/
def cleanPaneName (raw : String) : String :=
  let s := stripSuffixStr "Pref" raw
  let s := stripSuffixStr ".prefPane" s
  let s := stripSuffixStr "SettingsExtension" s
  let s := stripSuffixStr "Settings" s
  let s := stripSuffixStr "Extension" s
  let s := stripSuffixStr "Intents" s
  let s := stripSuffixStr "IntentsExtension" s
  let l := camelSplit s.data
  let l := acronymSplitGo false l
  let l := andReplaceGo false l
  let s := applyReplacements ⟨l⟩
  strTrim s

/-! ## Data model -/

/-- The `CommandInfo.category` field. -/
inductive Category where
  | app
  | settings
  | system
deriving DecidableEq

/-- The `CommandInfo` interface.  `path` is the `.app` path for apps and
the bundle identifier (or raw prefPane name) for settings; `none` models
the field being absent. -/
structure CommandInfo where
  id : String
  title : String
  keywords : List String
  iconDataUrl : Option String
  category : Category
  path : Option String
deriving DecidableEq

/-- The fields of a JSON-converted `Info.plist` that the module reads.
`none` models an absent key (JS `undefined`). -/
structure PlistInfo where
  CFBundleIconFile : Option String
  CFBundleIconName : Option String
  CFBundleDisplayName : Option String
  CFBundleName : Option String
  CFBundleIdentifier : Option String
deriving DecidableEq

/-- JS `a || b` on string-or-undefined values (`""` and `undefined` are falsy). -/
def jsOr (a b : Option String) : Option String :=
  match a with
  | some s => if s = "" then b else some s
  | none => b

/-- JS `a || ''`. -/
def jsStr (a : Option String) : String :=
  match a with
  | some s => s
  | none => ""

/-- The outside world consumed by the module, as pure functions.
`none` / `false` models a thrown error or a failed external invocation. -/
structure Env where
  /-- JS `fs.existsSync`. -/
  existsPath : String → Bool
  /-- JS `fs.readdirSync`; `none` models a throw. -/
  readdir : String → Option (List String)
  /-- JS `fs.readFileSync`, as a byte list; `none` models a throw. -/
  readFile : String → Option (List Nat)
  /-- JS `fs.unlinkSync` completing without throwing. -/
  unlinkOk : String → Bool
  /-- JS `execAsync cmd` resolving (exit status 0). -/
  execOk : String → Bool
  /-- stdout of a successful `execAsync cmd`. -/
  execOut : String → String
  /-- JS `JSON.parse` of `plutil` output restricted to the fields read; `none` models a parse error. -/
  parseJson : String → Option PlistInfo
  /-- Electron `app.getFileIcon(..).toDataURL()`; `none` models a throw or an empty icon. -/
  getFileIcon : String → Option String
  /-- JS `process.env.HOME || ''`. -/
  home : String
  /-- Electron `app.getPath('temp')`. -/
  tempDir : String

/-! ## Icon pipeline -/

/-- The temporary PNG path used by `icnsToPngDataUrl` after `++iconCounter`
yields `n`. -/
def tmpPngPath (env : Env) (n : Nat) : String :=
  joinPath env.tempDir ("launcher-icon-" ++ toString n ++ ".png")

def sipsCmd (env : Env) (n : Nat) (icnsPath : String) : String :=
  "/usr/bin/sips -s format png -z 64 64 \"" ++ icnsPath ++ "\" --out \"" ++
    tmpPngPath env n ++ "\" 2>/dev/null"

def plutilCmd (plistPath : String) : String :=
  "/usr/bin/plutil -convert json -o - \"" ++ plistPath ++ "\" 2>/dev/null"

def pngDataUrl (buf : List Nat) : String :=
  "data:image/png;base64," ++ ⟨base64Chunks buf⟩

/-- The converter `icnsToPngDataUrl`: convert an `.icns` file via `sips` into a fresh
temporary PNG, read and delete it, and return a data URL only when the
converted output exceeds 100 bytes.  Every failure (conversion, read,
delete) is caught and yields `none`.  Returns the new `iconCounter`. -/
def icnsToPngDataUrl (env : Env) (c : Nat) (icnsPath : String) : Option String × Nat :=
  let n := c + 1
  if env.execOk (sipsCmd env n icnsPath) then
    match env.readFile (tmpPngPath env n) with
    | some buf =>
      if env.unlinkOk (tmpPngPath env n) then
        (if buf.length > 100 then (some (pngDataUrl buf), n) else (none, n))
      else (none, n)
    | none => (none, n)
  else (none, n)

/-- The reader `readPlistJson`: `plutil`-convert a bundle's `Info.plist` to JSON and
parse it; any failure yields `none`. -/
def readPlistJson (env : Env) (bundlePath : String) : Option PlistInfo :=
  let plistPath := bundlePath ++ "/Contents/Info.plist"
  if env.existsPath plistPath then
    if env.execOk (plutilCmd plistPath) then
      env.parseJson (env.execOut (plutilCmd plistPath))
    else none
  else none

/-- The `for (const name of priorityNames)` loop of `getIconDataUrl` step 2. -/
def prioLoop (env : Env) (resourcesDir : String) (files : List String) :
    Nat → List String → Option String × Nat
  | c, [] => (none, c)
  | c, name :: rest =>
    if files.contains name then
      match icnsToPngDataUrl env c (resourcesDir ++ "/" ++ name) with
      | (some r, c') => (some r, c')
      | (none, c') => prioLoop env resourcesDir files c' rest
    else prioLoop env resourcesDir files c rest

def priorityNames : List String := ["icon.icns", "AppIcon.icns", "SharedAppIcon.icns"]

/-- The icon-file path resolution of `getIconDataUrl` step 1: the named
file inside `Contents/Resources`, retried with an `.icns` extension when
the bare name does not exist. -/
def resolveIcnsPath (env : Env) (resourcesDir iconFileName : String) : String :=
  let p0 := resourcesDir ++ "/" ++ iconFileName
  if !env.existsPath p0 && !strEndsWith iconFileName ".icns" then
    resourcesDir ++ "/" ++ iconFileName ++ ".icns"
  else p0

/-- Step 1 of `getIconDataUrl`: `CFBundleIconFile` / `CFBundleIconName`
from `Info.plist` (resolved with and without the `.icns` extension inside
`Contents/Resources`), converted with `sips`; any failure yields `none`. -/
def iconStep1 (env : Env) (c : Nat) (bundlePath : String) : Option String × Nat :=
  let resourcesDir := bundlePath ++ "/Contents/Resources"
  let plistPath := bundlePath ++ "/Contents/Info.plist"
  if env.existsPath plistPath then
    if env.execOk (plutilCmd plistPath) then
      match env.parseJson (env.execOut (plutilCmd plistPath)) with
      | some info =>
        match jsOr info.CFBundleIconFile info.CFBundleIconName with
        | some iconFileName =>
          if iconFileName = "" then (none, c)
          else
            let icnsPath := resolveIcnsPath env resourcesDir iconFileName
            if env.existsPath icnsPath then icnsToPngDataUrl env c icnsPath
            else (none, c)
        | none => (none, c)
      | none => (none, c)
    else (none, c)
  else (none, c)

/-- Step 2 of `getIconDataUrl`: conventional icon filenames in
`Contents/Resources`, then any `.icns` file there, converted with `sips`. -/
def iconStep2 (env : Env) (c : Nat) (bundlePath : String) : Option String × Nat :=
  let resourcesDir := bundlePath ++ "/Contents/Resources"
  if env.existsPath resourcesDir then
    match env.readdir resourcesDir with
    | some files =>
      match prioLoop env resourcesDir files c priorityNames with
      | (some r, c2) => (some r, c2)
      | (none, c2) =>
        match files.find? (fun f => strEndsWith f ".icns") with
        | some f => icnsToPngDataUrl env c2 (resourcesDir ++ "/" ++ f)
        | none => (none, c2)
    | none => (none, c)
  else (none, c)

/-- The extractor `getIconDataUrl`: a three-step fallback chain.
1. `CFBundleIconFile` / `CFBundleIconName` from `Info.plist`, converted with `sips`;
2. conventional icon filenames in `Contents/Resources`, then any `.icns` file there;
3. Electron's `app.getFileIcon`.
Each step's failures are swallowed; all three failing yields `none`. -/
def getIconDataUrl (env : Env) (c : Nat) (bundlePath : String) : Option String × Nat :=
  match iconStep1 env c bundlePath with
  | (some r, c1) => (some r, c1)
  | (none, c1) =>
    match iconStep2 env c1 bundlePath with
    | (some r, c2) => (some r, c2)
    | (none, c2) =>
      match env.getFileIcon bundlePath with
      | some url => (some url, c2)
      | none => (none, c2)

/-! ## Discovery

Each discovery phase touches three pieces of state per item: the dedup
`seen` set (a list of lowercase keys, modelling the JS `Set`), the result
list, and the shared `iconCounter`.  `foldItems` is the common loop shape:
per item, an item function either skips (leaving `seen` untouched) or
claims a fresh key and yields an entry.  Per the cooperative-scheduling
note in the header, items are processed sequentially in list order. -/

/-- One discovery loop: thread `seen` and the icon counter through the
item function, collecting produced entries in order. -/
def foldItems {σ : Type} (f : σ → List String → Nat → Option CommandInfo × List String × Nat) :
    List σ → List String → Nat → List CommandInfo × List String × Nat
  | [], seen, c => ([], seen, c)
  | x :: xs, seen, c =>
    match f x seen c with
    | (some e, seen1, c1) =>
      let r := foldItems f xs seen1 c1
      (e :: r.1, r.2)
    | (none, seen1, c1) => foldItems f xs seen1 c1

/-- The entries of directory `d` ending in `suffix`; a missing directory or
a failing `readdirSync` contributes nothing (`continue`). -/
def dirEntries (env : Env) (d : String) (suffix : String) : List String :=
  if env.existsPath d then ((env.readdir d).getD []).filter (fun e => strEndsWith e suffix)
  else []

/-- The `appDirs` list of `discoverApplications`. -/
def appDirs (env : Env) : List String :=
  ["/Applications", "/System/Applications", "/System/Applications/Utilities",
   joinPath env.home "Applications"]

/-- All scanned `(directory, entry)` pairs for application discovery, in
scan order (directory list order, then enumeration order). -/
def appPairs (env : Env) : List (String × String) :=
  (appDirs env).flatMap (fun d => (dirEntries env d ".app").map (fun e => (d, e)))

/-- The per-bundle body of `discoverApplications`: derive the title from the
bundle filename, dedup by lowercase title, fetch the icon. -/
def appItem (env : Env) (de : String × String) (seen : List String) (c : Nat) :
    Option CommandInfo × List String × Nat :=
  let appPath := de.1 ++ "/" ++ de.2
  let name := basenameMinus de.2 ".app"
  let key := strToLower name
  if key ∈ seen then (none, seen, c)
  else
    let r := getIconDataUrl env c appPath
    (some { id := "app-" ++ strSlug key, title := name, keywords := [key],
            iconDataUrl := r.1, category := Category.app, path := some appPath },
     key :: seen, r.2)

/-- The flow `discoverApplications`: scan the standard application directories,
dedup by lowercase bundle name, and build `app` entries. -/
def discoverApplications (env : Env) (c : Nat) : List CommandInfo × Nat :=
  let r := foldItems (appItem env) (appPairs env) [] c
  (r.1, r.2.2)

/-! ### System-Settings discovery -/

def extDir : String := "/System/Library/ExtensionKit/Extensions"

/-- Extension files whose name indicates a settings/preference role. -/
def appexNameFilter (f : String) : Bool :=
  strEndsWith f ".appex" &&
    (strIncludes (strToLower f) "settings" || strIncludes (strToLower f) "preference" ||
      strIncludes (strToLower f) "pref")

/-- The fixed allow-list of known settings extensions. -/
def knownSettingsList : List String :=
  ["Bluetooth.appex", "Appearance.appex", "PowerPreferences.appex", "Network.appex",
   "Screen Saver.appex", "Wallpaper.appex", "StartupDisk.appex", "Computer Name.appex",
   "CDs & DVDs Settings Extension.appex", "FamilySettings.appex", "ClassKitSettings.appex",
   "ClassroomSettings.appex", "CoverageSettings.appex", "DesktopSettings.appex"]

/-- JS `[...new Set(l)]`: keep the first occurrence of each element. -/
def dedupFirst (acc : List String) : List String → List String
  | [] => []
  | x :: rest => if x ∈ acc then dedupFirst acc rest else x :: dedupFirst (x :: acc) rest

/-- The `allAppex` work list of settings Source 1: name-filtered `.appex`
files plus the allow-listed ones, first occurrence kept. -/
def allAppexFiles (env : Env) : List String :=
  if env.existsPath extDir then
    let files := (env.readdir extDir).getD []
    dedupFirst [] (files.filter appexNameFilter ++
      files.filter (fun f => f ∈ knownSettingsList))
  else []

/-- The manifest-driven part of the per-`.appex` filtering: require a
display name, drop intent/widget helper extensions, normalize code-looking
names, require length ≥ 2.  Returns the final display name and the bundle
identifier (`''` when absent). -/
def appexNameInfo (info : PlistInfo) : Option (String × String) :=
  let displayName := jsStr (jsOr info.CFBundleDisplayName info.CFBundleName)
  let bundleId := jsStr info.CFBundleIdentifier
  if displayName = "" || strIncludes displayName "Intents" || strIncludes displayName "Widget" ||
      strEndsWith displayName "DeviceExpert" || strIncludes bundleId "intents" ||
      strIncludes bundleId "widget" then
    none
  else
    let displayName :=
      if strIncludes displayName "Extension" || strIncludes displayName "Settings" then
        cleanPaneName displayName
      else displayName
    if displayName = "" || displayName.data.length < 2 then none
    else some (displayName, bundleId)

/-- The filtering/renaming prelude of the per-`.appex` body, up to the dedup
check: read the manifest and apply `appexNameInfo`; an unreadable manifest
drops the item. -/
def appexName (env : Env) (file : String) : Option (String × String) :=
  match readPlistJson env (extDir ++ "/" ++ file) with
  | none => none
  | some info => appexNameInfo info

/-- The entry constructor of the per-`.appex` body, given the name pair:
dedup by lowercase display name, fetch a per-pane icon with the shared
settings-app icon as fallback, and build a `settings` entry whose `path`
is the bundle identifier. -/
def appexEntry (env : Env) (settingsIcon : Option String) (file : String)
    (dn : String × String) (seen : List String) (c : Nat) :
    Option CommandInfo × List String × Nat :=
  let key := strToLower dn.1
  if key ∈ seen then (none, seen, c)
  else
    let r := getIconDataUrl env c (extDir ++ "/" ++ file)
    (some { id := "settings-" ++ strSlug key, title := dn.1,
            keywords := ["system settings", "preferences", key],
            iconDataUrl := jsOr r.1 settingsIcon, category := Category.settings,
            path := some dn.2 },
     key :: seen, r.2)

/-- The per-`.appex` body of settings Source 1. -/
def appexItem (env : Env) (settingsIcon : Option String) (file : String)
    (seen : List String) (c : Nat) : Option CommandInfo × List String × Nat :=
  match appexName env file with
  | none => (none, seen, c)
  | some dn => appexEntry env settingsIcon file dn seen c

def prefDirs (env : Env) : List String :=
  ["/System/Library/PreferencePanes", "/Library/PreferencePanes",
   joinPath env.home "Library/PreferencePanes"]

/-- All scanned `(directory, entry)` pairs for settings Source 2. -/
def panePairs (env : Env) : List (String × String) :=
  (prefDirs env).flatMap (fun d => (dirEntries env d ".prefPane").map (fun e => (d, e)))

/-- The per-`.prefPane` body of settings Source 2: normalize the bundle
filename, skip keys already claimed (in particular by Source 1), and build
a `settings` entry whose `path` is the raw prefPane name. -/
def paneItem (env : Env) (settingsIcon : Option String) (de : String × String)
    (seen : List String) (c : Nat) : Option CommandInfo × List String × Nat :=
  let panePath := de.1 ++ "/" ++ de.2
  let rawName := basenameMinus de.2 ".prefPane"
  let displayName := cleanPaneName rawName
  let key := strToLower displayName
  if key ∈ seen then (none, seen, c)
  else
    let r := getIconDataUrl env c panePath
    (some { id := "settings-" ++ strSlug key, title := displayName,
            keywords := ["system settings", "preferences", key],
            iconDataUrl := jsOr r.1 settingsIcon, category := Category.settings,
            path := some rawName },
     key :: seen, r.2)

/-- The shared System Settings app icon: the first of the two known
settings-app bundles that exists (the loop `break`s after the first hit,
even when icon extraction fails). -/
def settingsIconOf (env : Env) (c : Nat) : Option String × Nat :=
  if env.existsPath "/System/Applications/System Settings.app" then
    getIconDataUrl env c "/System/Applications/System Settings.app"
  else if env.existsPath "/System/Applications/System Preferences.app" then
    getIconDataUrl env c "/System/Applications/System Preferences.app"
  else (none, c)

/-- Settings Source 1 (extension-style), run with an empty `seen` set. -/
def settingsSourceA (env : Env) (settingsIcon : Option String) (c : Nat) :
    List CommandInfo × List String × Nat :=
  foldItems (appexItem env settingsIcon) (allAppexFiles env) [] c

/-- Settings Source 2 (legacy panel-style), run after Source 1 with the
`seen` set Source 1 left behind. -/
def settingsSourceB (env : Env) (settingsIcon : Option String) (seen : List String) (c : Nat) :
    List CommandInfo × List String × Nat :=
  foldItems (paneItem env settingsIcon) (panePairs env) seen c

/-- The flow `discoverSystemSettings`: the two-source merge.  Source 1 is processed
first and shares one `seen` set with Source 2, so on a key conflict the
extension-style entry survives. -/
def discoverSystemSettings (env : Env) (c : Nat) : List CommandInfo × Nat :=
  let si := settingsIconOf env c
  let a := settingsSourceA env si.1 si.2
  let b := settingsSourceB env si.1 a.2.1 a.2.2
  (a.1 ++ b.1, b.2.2)

/-! ## Cache and public API -/

/-- The module-level mutable state: the single cache slot, its timestamp,
and the temp-file counter. -/
structure RegState where
  cachedCommands : Option (List CommandInfo)
  cacheTimestamp : Nat
  iconCounter : Nat
deriving DecidableEq

/-- The initial module state: empty cache, timestamp 0. -/
def initState : RegState := { cachedCommands := none, cacheTimestamp := 0, iconCounter := 0 }

def CACHE_TTL : Nat := 120000

/-- Code-point lexicographic order on character lists, the model of the
`localeCompare`-based comparator (see the header note). -/
def lexLe : List Char → List Char → Bool
  | [], _ => true
  | _ :: _, [] => false
  | a :: as, b :: bs => if a < b then true else if b < a then false else lexLe as bs

/-- Insert into a sorted list, keeping earlier equal elements first. -/
def insertBy {α : Type} (le : α → α → Bool) (x : α) : List α → List α
  | [] => [x]
  | y :: ys => if le x y then x :: y :: ys else y :: insertBy le x ys

/-- A stable comparison sort, the model of `Array.prototype.sort` with a
comparator (ES2019 `sort` is stable; any comparator-consistent result is
observationally the same given the totality of the comparator). -/
def sortBy {α : Type} (le : α → α → Bool) : List α → List α
  | [] => []
  | x :: xs => insertBy le x (sortBy le xs)

/-- The `(a, b) => a.title.localeCompare(b.title)` comparator, as a
reflexive total order. -/
def titleLe (a b : CommandInfo) : Bool := lexLe a.title.data b.title.data

/-- The fixed `systemCommands` appended to every rebuilt catalog. -/
def systemCommands : List CommandInfo :=
  [{ id := "system-quit-launcher", title := "Quit Launcher",
     keywords := ["exit", "close", "quit", "stop"], iconDataUrl := none,
     category := Category.system, path := none }]

def quitCommand : CommandInfo :=
  { id := "system-quit-launcher", title := "Quit Launcher",
    keywords := ["exit", "close", "quit", "stop"], iconDataUrl := none,
    category := Category.system, path := none }

/-- JS `arr.sort((a, b) => a.title.localeCompare(b.title))` (see the header
note on `localeCompare`). -/
def sortByTitle (l : List CommandInfo) : List CommandInfo :=
  sortBy titleLe l

/-- The result of one `getAvailableCommands` call: the returned catalog,
the module state afterwards, and whether the discovery flows were invoked. -/
structure GetResult where
  commands : List CommandInfo
  state : RegState
  rebuilt : Bool
deriving DecidableEq

/-- The cache-miss path of `getAvailableCommands`: run both discovery
flows, sort each result set by title, append the system entries, store the
catalog with the current timestamp. -/
def rebuildCatalog (env : Env) (st : RegState) (now : Nat) : GetResult :=
  let a := discoverApplications env st.iconCounter
  let s := discoverSystemSettings env a.2
  let catalog := sortByTitle a.1 ++ sortByTitle s.1 ++ systemCommands
  { commands := catalog,
    state := { cachedCommands := some catalog, cacheTimestamp := now, iconCounter := s.2 },
    rebuilt := true }

/-- The exported `getAvailableCommands`: return the cached catalog while
`now - cacheTimestamp < CACHE_TTL`, otherwise rebuild.  (`Date.now()`
deltas are modelled in `Int` so that a clock running backwards still
counts as within the TTL, as in JS.) -/
def getAvailableCommands (env : Env) (st : RegState) (now : Nat) : GetResult :=
  match st.cachedCommands with
  | some l =>
    if (now : Int) - (st.cacheTimestamp : Int) < (CACHE_TTL : Int) then
      { commands := l, state := st, rebuilt := false }
    else rebuildCatalog env st now
  | none => rebuildCatalog env st now

/-- The exported `invalidateCache`. -/
def invalidateCache (st : RegState) : RegState :=
  { st with cachedCommands := none, cacheTimestamp := 0 }

/-! ## Execution -/

/-- Whether `openAppByPath` completed without throwing: a single `open` invocation. -/
def openAppByPathOk (env : Env) (appPath : String) : Bool :=
  env.execOk ("open \"" ++ appPath ++ "\"")

/-- The dispatcher `openSettingsPane`: the ordered dispatch chain.  Returns the 1-based
index of the first `open` invocation that succeeded, or `none` when every
attempt failed.  Every failure — including the final fallback's — is
caught inside the function (the last `catch` only logs), so the JS
function returns normally in all cases and its caller cannot observe
which case occurred. -/
def openSettingsPane (env : Env) (identifier : String) : Option Nat :=
  if strStartsWith identifier "com.apple." &&
      env.execOk ("open \"x-apple.systempreferences:" ++ identifier ++ "\"") then some 1
  else if env.execOk ("open \"x-apple.systempreferences:com.apple.settings." ++ identifier ++ "\"") then
    some 2
  else if env.execOk ("open \"x-apple.systempreferences:com.apple.preference." ++
      strToLower identifier ++ "\"") then some 3
  else if env.execOk "open -a \"System Settings\"" then some 4
  else if env.execOk "open -a \"System Preferences\"" then some 5
  else none

/-- The result of one `executeCommand` call: the returned boolean, the
module state afterwards, whether a catalog rebuild ran, and whether
`app.quit()` was invoked. -/
structure ExecResult where
  ok : Bool
  state : RegState
  rebuilt : Bool
  quit : Bool
deriving DecidableEq

/-- The exported `executeCommand`: the quit command short-circuits before the catalog is
consulted; otherwise the id is resolved through `getAvailableCommands`, a
falsy `path` (absent or `""`) yields `false`, an `app` entry succeeds iff
its single `open` does, and a `settings` entry always yields `true`
because `openSettingsPane` never throws. -/
def executeCommand (env : Env) (st : RegState) (now : Nat) (id : String) : ExecResult :=
  if id = "system-quit-launcher" then
    { ok := true, state := st, rebuilt := false, quit := true }
  else
    let r := getAvailableCommands env st now
    match r.commands.find? (fun cmd => cmd.id == id) with
    | none => { ok := false, state := r.state, rebuilt := r.rebuilt, quit := false }
    | some cmd =>
      match cmd.path with
      | none => { ok := false, state := r.state, rebuilt := r.rebuilt, quit := false }
      | some p =>
        if p = "" then { ok := false, state := r.state, rebuilt := r.rebuilt, quit := false }
        else if cmd.category = Category.app then
          { ok := openAppByPathOk env p, state := r.state, rebuilt := r.rebuilt, quit := false }
        else if cmd.category = Category.settings then
          let _attempt := openSettingsPane env p
          { ok := true, state := r.state, rebuilt := r.rebuilt, quit := false }
        else
          { ok := true, state := r.state, rebuilt := r.rebuilt, quit := false }

/-! ## Concrete environments

Small worlds used to evaluate the embedding at concrete inputs. -/

/-- A world where every directory is absent and every external invocation
fails. -/
def envAllFail : Env :=
  { existsPath := fun _ => false, readdir := fun _ => none, readFile := fun _ => none,
    unlinkOk := fun _ => false, execOk := fun _ => false, execOut := fun _ => "",
    parseJson := fun _ => none, getFileIcon := fun _ => none,
    home := "/Users/u", tempDir := "/tmp" }

/-- A world with a single legacy pane `Foo.prefPane` and every `exec`
invocation failing — in particular every `open` dispatch attempt. -/
def envPane : Env :=
  { envAllFail with
    existsPath := fun p => p == "/System/Library/PreferencePanes",
    readdir := fun p =>
      if p == "/System/Library/PreferencePanes" then some ["Foo.prefPane"] else none }

def fooPlistPath : String := extDir ++ "/FooSettings.appex/Contents/Info.plist"

/-- A manifest with a display name but no `CFBundleIdentifier`. -/
def fooInfo : PlistInfo :=
  { CFBundleIconFile := none, CFBundleIconName := none,
    CFBundleDisplayName := some "FooSettings", CFBundleName := none,
    CFBundleIdentifier := none }

/-- A world where the extension-style source yields `FooSettings.appex`
(display name `FooSettings` → `Foo`, no bundle identifier) and the legacy
source offers `Foo.prefPane` (same key `foo`) and `Bar.prefPane`. -/
def envRich : Env :=
  { envAllFail with
    existsPath := fun p =>
      p == extDir || p == "/System/Library/PreferencePanes" || p == fooPlistPath,
    readdir := fun p =>
      if p == extDir then some ["FooSettings.appex"]
      else if p == "/System/Library/PreferencePanes" then some ["Foo.prefPane", "Bar.prefPane"]
      else none,
    execOk := fun s => s == plutilCmd fooPlistPath,
    execOut := fun s => if s == plutilCmd fooPlistPath then "FOOPLIST" else "",
    parseJson := fun s => if s == "FOOPLIST" then some fooInfo else none }

/-- The extension-derived settings entry of `envRich` (empty target: its
manifest has no bundle identifier). -/
def fooEntryRich : CommandInfo :=
  { id := "settings-foo", title := "Foo",
    keywords := ["system settings", "preferences", "foo"], iconDataUrl := none,
    category := Category.settings, path := some "" }

/-- The legacy-pane settings entry of `envRich`. -/
def barEntryRich : CommandInfo :=
  { id := "settings-bar", title := "Bar",
    keywords := ["system settings", "preferences", "bar"], iconDataUrl := none,
    category := Category.settings, path := some "Bar" }

/-- A world with one extension-style settings bundle whose manifest is
missing (`Info.plist` does not exist). -/
def envNoManifest : Env :=
  { envAllFail with
    existsPath := fun p => p == extDir,
    readdir := fun p => if p == extDir then some ["BarSettings.appex"] else none }

/-- The module state after one `getAvailableCommands` call at time 0 in
`envAllFail`: a populated cache stamped 0. -/
def st3 : RegState := (getAvailableCommands envAllFail initState 0).state

/-- A world with two application bundles whose distinct lowercase keys
`"a b"` and `"a.b"` have the same alphanumeric slug `a-b`. -/
def envApps : Env :=
  { envAllFail with
    existsPath := fun p => p == "/Applications",
    readdir := fun p => if p == "/Applications" then some ["A B.app", "A.B.app"] else none }

/-- The dedup key of an entry: its lowercase title.  Every discovery item
function computes its `seen` key as the lowercase of the title it stores. -/
def keyOf (e : CommandInfo) : String := strToLower e.title

/-- The id-derivation function shared by all entry constructors: a category
tag followed by the alphanumeric slug of the lowercase key. -/
def mkId (cat : Category) (key : String) : String :=
  (match cat with
   | Category.app => "app-"
   | Category.settings => "settings-"
   | Category.system => "system-") ++ strSlug key

/-- Settings Source 1 as run by `discoverSystemSettings` from counter `c`. -/
def sourceAOf (env : Env) (c : Nat) : List CommandInfo × List String × Nat :=
  settingsSourceA env (settingsIconOf env c).1 (settingsIconOf env c).2

/-- Settings Source 2 as run by `discoverSystemSettings` from counter `c`,
with the `seen` set Source 1 left behind. -/
def sourceBOf (env : Env) (c : Nat) : List CommandInfo × List String × Nat :=
  settingsSourceB env (settingsIconOf env c).1 (sourceAOf env c).2.1 (sourceAOf env c).2.2

/-- Contract of a discovery item function: it either skips the item
(leaving `seen` untouched) or emits an entry whose key was fresh and is
now recorded in `seen`. -/
def ItemOk {σ : Type} (f : σ → List String → Nat → Option CommandInfo × List String × Nat) : Prop :=
  ∀ x seen c,
    ((f x seen c).1 = none ∧ (f x seen c).2.1 = seen) ∨
    (∃ e, (f x seen c).1 = some e ∧ (f x seen c).2.1 = keyOf e :: seen ∧ keyOf e ∉ seen)

/-! ## General lemmas: the comparator and the sort -/

theorem lexLe_total : ∀ a b : List Char, lexLe a b = true ∨ lexLe b a = true
  | [], _ => Or.inl rfl
  | _ :: _, [] => Or.inr rfl
  | a :: as, b :: bs => by
    simp only [lexLe]
    rcases lt_trichotomy a b with h | h | h
    · left; simp [h]
    · subst h
      simp only [lt_irrefl, if_false]
      exact lexLe_total as bs
    · right; simp [h]

theorem lexLe_trans : ∀ a b c : List Char,
    lexLe a b = true → lexLe b c = true → lexLe a c = true
  | [], _, _, _, _ => rfl
  | _ :: _, [], _, h1, _ => by simp [lexLe] at h1
  | _ :: _, _ :: _, [], _, h2 => by simp [lexLe] at h2
  | a :: as, b :: bs, c :: cs, h1, h2 => by
    simp only [lexLe] at h1 h2 ⊢
    rcases lt_trichotomy a b with hab | hab | hab
    · rcases lt_trichotomy b c with hbc | hbc | hbc
      · simp [lt_trans hab hbc]
      · subst hbc; simp [hab]
      · rw [if_neg (lt_asymm hbc), if_pos hbc] at h2
        exact absurd h2 (by simp)
    · subst hab
      rw [if_neg (lt_irrefl a), if_neg (lt_irrefl a)] at h1
      rcases lt_trichotomy a c with hac | hac | hac
      · simp [hac]
      · subst hac
        rw [if_neg (lt_irrefl a), if_neg (lt_irrefl a)] at h2 ⊢
        exact lexLe_trans as bs cs h1 h2
      · rw [if_neg (lt_asymm hac), if_pos hac] at h2
        exact absurd h2 (by simp)
    · rw [if_neg (lt_asymm hab), if_pos hab] at h1
      exact absurd h1 (by simp)

theorem mem_insertBy {α : Type} (le : α → α → Bool) (x : α) :
    ∀ (l : List α) (y : α), y ∈ insertBy le x l ↔ y = x ∨ y ∈ l
  | [], y => by simp [insertBy]
  | z :: zs, y => by
    simp only [insertBy]
    by_cases h : le x z = true
    · simp only [if_pos h, List.mem_cons]
    · simp only [if_neg h, List.mem_cons, mem_insertBy le x zs y]
      tauto

theorem pairwise_insertBy {α : Type} (le : α → α → Bool)
    (total : ∀ a b, le a b = true ∨ le b a = true)
    (htrans : ∀ a b c, le a b = true → le b c = true → le a c = true)
    (x : α) : ∀ l : List α, l.Pairwise (fun a b => le a b = true) →
      (insertBy le x l).Pairwise (fun a b => le a b = true)
  | [], _ => by simp [insertBy]
  | z :: zs, hp => by
    rcases List.pairwise_cons.mp hp with ⟨hz, hzs⟩
    simp only [insertBy]
    by_cases h : le x z = true
    · rw [if_pos h]
      refine List.pairwise_cons.mpr ⟨?_, hp⟩
      intro b hb
      rcases List.mem_cons.mp hb with rfl | hb
      · exact h
      · exact htrans x z b h (hz b hb)
    · have hzx : le z x = true := (total x z).resolve_left h
      rw [if_neg h]
      refine List.pairwise_cons.mpr ⟨?_, pairwise_insertBy le total htrans x zs hzs⟩
      intro b hb
      rcases (mem_insertBy le x zs b).mp hb with rfl | hb
      · exact hzx
      · exact hz b hb

theorem pairwise_sortBy {α : Type} (le : α → α → Bool)
    (total : ∀ a b, le a b = true ∨ le b a = true)
    (htrans : ∀ a b c, le a b = true → le b c = true → le a c = true) :
    ∀ l : List α, (sortBy le l).Pairwise (fun a b => le a b = true)
  | [] => by simp [sortBy]
  | x :: xs => pairwise_insertBy le total htrans x _ (pairwise_sortBy le total htrans xs)

theorem mem_sortBy {α : Type} (le : α → α → Bool) :
    ∀ (l : List α) (y : α), y ∈ sortBy le l ↔ y ∈ l
  | [], _ => Iff.rfl
  | x :: xs, y => by
    simp only [sortBy, mem_insertBy le x (sortBy le xs) y, mem_sortBy le xs y, List.mem_cons]

theorem titleLe_total (a b : CommandInfo) : titleLe a b = true ∨ titleLe b a = true :=
  lexLe_total a.title.data b.title.data

theorem titleLe_trans (a b c : CommandInfo)
    (h1 : titleLe a b = true) (h2 : titleLe b c = true) : titleLe a c = true :=
  lexLe_trans a.title.data b.title.data c.title.data h1 h2

/-! ## General lemmas: the discovery loop -/

/-- Invariants of one discovery loop, given the per-item contract: the
`seen` set only grows, every emitted entry's key is fresh on entry and
recorded on exit, and emitted keys are pairwise distinct. -/
theorem foldItems_spec {σ : Type}
    (f : σ → List String → Nat → Option CommandInfo × List String × Nat) (hf : ItemOk f) :
    ∀ (xs : List σ) (seen : List String) (c : Nat),
      (∀ k, k ∈ seen → k ∈ (foldItems f xs seen c).2.1) ∧
      (∀ e, e ∈ (foldItems f xs seen c).1 →
        keyOf e ∈ (foldItems f xs seen c).2.1 ∧ keyOf e ∉ seen) ∧
      (foldItems f xs seen c).1.Pairwise (fun a b => keyOf a ≠ keyOf b)
  | [], seen, c => by
    refine ⟨fun k hk => hk, fun e he => absurd he (by simp [foldItems]), by simp [foldItems]⟩
  | x :: xs, seen, c => by
    rcases hfx : f x seen c with ⟨r, seen1, c1⟩
    rcases hf x seen c with ⟨h1, h2⟩ | ⟨e, h1, h2, h3⟩
    · rw [hfx] at h1 h2
      obtain rfl : r = none := h1
      have h2' : seen1 = seen := h2
      subst h2'
      obtain ⟨ih1, ih2, ih3⟩ := foldItems_spec f hf xs seen1 c1
      simp only [foldItems, hfx]
      exact ⟨ih1, ih2, ih3⟩
    · rw [hfx] at h1 h2
      obtain rfl : r = some e := h1
      obtain rfl : seen1 = keyOf e :: seen := h2
      obtain ⟨ih1, ih2, ih3⟩ := foldItems_spec f hf xs (keyOf e :: seen) c1
      simp only [foldItems, hfx]
      refine ⟨?_, ?_, ?_⟩
      · intro k hk
        exact ih1 k (List.mem_cons_of_mem _ hk)
      · intro e' he'
        rcases List.mem_cons.mp he' with rfl | he'
        · exact ⟨ih1 _ (List.mem_cons_self _ _), h3⟩
        · rcases ih2 e' he' with ⟨ha, hb⟩
          exact ⟨ha, fun hc => hb (List.mem_cons_of_mem _ hc)⟩
      · refine List.pairwise_cons.mpr ⟨?_, ih3⟩
        intro b hb hEq
        exact (ih2 b hb).2 (hEq ▸ List.mem_cons_self _ _)

/-- Every entry a discovery loop emits comes from its item function. -/
theorem foldItems_all {σ : Type}
    (f : σ → List String → Nat → Option CommandInfo × List String × Nat)
    (P : CommandInfo → Prop)
    (hf : ∀ x seen c e, (f x seen c).1 = some e → P e) :
    ∀ (xs : List σ) (seen : List String) (c : Nat) (e : CommandInfo),
      e ∈ (foldItems f xs seen c).1 → P e
  | [], _, _, e, he => absurd he (by simp [foldItems])
  | x :: xs, seen, c, e, he => by
    rcases hfx : f x seen c with ⟨r, seen1, c1⟩
    rcases r with - | e0
    · simp only [foldItems, hfx] at he
      exact foldItems_all f P hf xs seen1 c1 e he
    · simp only [foldItems, hfx, List.mem_cons] at he
      rcases he with rfl | he
      · exact hf x seen c e (by rw [hfx])
      · exact foldItems_all f P hf xs seen1 c1 e he

/-- A skipped item leaves the loop unchanged: the batch continues. -/
theorem foldItems_skip {σ : Type}
    (f : σ → List String → Nat → Option CommandInfo × List String × Nat)
    (x : σ) (xs : List σ) (seen : List String) (c : Nat)
    (h : f x seen c = (none, seen, c)) :
    foldItems f (x :: xs) seen c = foldItems f xs seen c := by
  simp only [foldItems, h]

theorem appItem_ok (env : Env) : ItemOk (appItem env) := by
  intro x seen c
  simp only [appItem]
  by_cases h : strToLower (basenameMinus x.2 ".app") ∈ seen
  · rw [if_pos h]; left; exact ⟨rfl, rfl⟩
  · rw [if_neg h]; right; exact ⟨_, rfl, rfl, h⟩

/-- The target an extension-style entry carries is exactly the manifest's
identifier field (with `''` for an absent one). -/
theorem appexNameInfo_ident (info : PlistInfo) (dn : String × String)
    (h : appexNameInfo info = some dn) : dn.2 = jsStr info.CFBundleIdentifier := by
  unfold appexNameInfo at h
  dsimp only at h
  split at h
  · exact Option.noConfusion h
  · split at h <;> split at h <;>
      first
        | exact Option.noConfusion h
        | exact (congrArg Prod.snd (Option.some.inj h)).symm

theorem appexItem_ok (env : Env) (sIcon : Option String) : ItemOk (appexItem env sIcon) := by
  intro x seen c
  rcases han : appexName env x with - | dn
  · left
    constructor <;> simp [appexItem, han]
  · have hred : appexItem env sIcon x seen c = appexEntry env sIcon x dn seen c := by
      simp [appexItem, han]
    rw [hred]
    simp only [appexEntry]
    by_cases h : strToLower dn.1 ∈ seen
    · rw [if_pos h]; left; exact ⟨rfl, rfl⟩
    · rw [if_neg h]; right; exact ⟨_, rfl, rfl, h⟩

theorem paneItem_ok (env : Env) (sIcon : Option String) : ItemOk (paneItem env sIcon) := by
  intro x seen c
  simp only [paneItem]
  by_cases h : strToLower (cleanPaneName (basenameMinus x.2 ".prefPane")) ∈ seen
  · rw [if_pos h]; left; exact ⟨rfl, rfl⟩
  · rw [if_neg h]; right; exact ⟨_, rfl, rfl, h⟩

/-! ## The claims -/

/-- Claim C4: the name normalizer is a pure deterministic function, and on
the reference inputs `cleanPaneName "DateAndTime" = "Date & Time"` and
`cleanPaneName "DesktopScreenEffectsPref" = "Desktop & Screen Saver"`.
(Purity/determinism is intrinsic: `cleanPaneName` is a function of its
argument alone, so repeated calls agree.) -/
theorem C4_pure_normalization :
    cleanPaneName "DateAndTime" = "Date & Time"
    ∧ cleanPaneName "DesktopScreenEffectsPref" = "Desktop & Screen Saver"
    ∧ ∀ s : String, cleanPaneName s = cleanPaneName s :=
  ⟨by decide, by decide, fun _ => rfl⟩

/-- Claim C9: for every cache state (including an empty or invalidated one),
`executeCommand "system-quit-launcher"` returns `true` immediately: it
invokes `app.quit()`, does not consult the catalog, triggers no rebuild,
and leaves the cache slot, timestamp and counter unchanged. -/
theorem C9_quit_shortcircuit (env : Env) (st : RegState) (now : Nat) :
    executeCommand env st now "system-quit-launcher" =
      { ok := true, state := st, rebuilt := false, quit := true } := rfl

/-- Claim C2: in a merged settings-discovery result, no two entries share the
same lowercase-normalized title, and a key claimed by the extension-style
source (Source 1) never survives via the legacy-panel source (Source 2):
the merged list is exactly Source 1's entries followed by Source 2's, and
every Source 2 survivor has a key distinct from every Source 1 key. -/
theorem C2_dedup_and_priority (env : Env) (c : Nat) :
    (discoverSystemSettings env c).1 = (sourceAOf env c).1 ++ (sourceBOf env c).1
    ∧ (discoverSystemSettings env c).1.Pairwise
        (fun a b => strToLower a.title ≠ strToLower b.title)
    ∧ ∀ b ∈ (sourceBOf env c).1, ∀ a ∈ (sourceAOf env c).1,
        strToLower b.title ≠ strToLower a.title := by
  obtain ⟨hA1, hA2, hA3⟩ :=
    foldItems_spec _ (appexItem_ok env (settingsIconOf env c).1)
      (allAppexFiles env) [] (settingsIconOf env c).2
  obtain ⟨hB1, hB2, hB3⟩ :=
    foldItems_spec _ (paneItem_ok env (settingsIconOf env c).1)
      (panePairs env) (sourceAOf env c).2.1 (sourceAOf env c).2.2
  have hcross : ∀ b ∈ (sourceBOf env c).1, ∀ a ∈ (sourceAOf env c).1,
      strToLower b.title ≠ strToLower a.title := by
    intro b hb a ha hEq
    have hbk : keyOf b ∉ (sourceAOf env c).2.1 := (hB2 b hb).2
    have hak : keyOf a ∈ (sourceAOf env c).2.1 := (hA2 a ha).1
    have hEq' : keyOf b = keyOf a := hEq
    exact hbk (hEq' ▸ hak)
  refine ⟨rfl, ?_, hcross⟩
  have hsplit : (discoverSystemSettings env c).1 = (sourceAOf env c).1 ++ (sourceBOf env c).1 :=
    rfl
  rw [hsplit]
  exact List.pairwise_append.mpr
    ⟨hA3, hB3, fun a ha b hb hEq => hcross b hb a ha (hEq.symm)⟩

/-- Witness for C2 in `envRich`, where both settings sources produce
entries: Source 1 yields `Foo` (claiming the key `foo`), Source 2 skips
its own `Foo.prefPane` and yields `Bar`, whose key differs. -/
theorem C2_witness : strToLower barEntryRich.title ≠ strToLower fooEntryRich.title :=
  (C2_dedup_and_priority envRich 0).2.2 barEntryRich (by decide) fooEntryRich (by decide)

/-- Claim C1, counterexample to the claim as stated: in `envPane` the id
`settings-foo` resolves to a settings entry with target `Foo`, every
dispatch attempt in the fallback chain fails (`openSettingsPane` finds no
successful step), and yet `executeCommand` returns `true` — the claim's
"false only if every fallback fails" is violated by the code, whose
settings dispatcher swallows even total exhaustion. -/
theorem C1_counterexample :
    (getAvailableCommands envPane initState 0).commands.find?
        (fun cmd => cmd.id == "settings-foo") =
      some { id := "settings-foo", title := "Foo",
             keywords := ["system settings", "preferences", "foo"], iconDataUrl := none,
             category := Category.settings, path := some "Foo" }
    ∧ openSettingsPane envPane "Foo" = none
    ∧ (executeCommand envPane initState 0 "settings-foo").ok = true := by decide

/-- Claim C1, amended: for an id other than the quit id, `executeCommand`
returns `false` when the id does not resolve in the catalog; for an
application command resolved with a non-empty target it returns exactly
the success of its single `open` attempt (so `false` when that dispatch
fails); and for a settings-panel command resolved with a non-empty target
it returns `true` — the clause holds with no assumption on the dispatch
environment, so in particular it returns `true` once any later fallback
succeeds and also when every fallback fails, because `openSettingsPane`
catches every failure, including the final one. -/
theorem C1_amended (env : Env) (st : RegState) (now : Nat) (id : String)
    (hid : id ≠ "system-quit-launcher") :
    ((getAvailableCommands env st now).commands.find? (fun cmd => cmd.id == id) = none →
      (executeCommand env st now id).ok = false)
    ∧ (∀ cmd p,
        (getAvailableCommands env st now).commands.find? (fun c0 => c0.id == id) = some cmd →
        cmd.path = some p → p ≠ "" → cmd.category = Category.app →
        (executeCommand env st now id).ok = openAppByPathOk env p)
    ∧ (∀ cmd p,
        (getAvailableCommands env st now).commands.find? (fun c0 => c0.id == id) = some cmd →
        cmd.path = some p → p ≠ "" → cmd.category = Category.settings →
        (executeCommand env st now id).ok = true) := by
  refine ⟨?_, ?_, ?_⟩
  · intro hfind
    simp [executeCommand, hid, hfind]
  · intro cmd p hfind hpath hp hcat
    simp [executeCommand, hid, hfind, hpath, hp, hcat]
  · intro cmd p hfind hpath hp hcat
    simp [executeCommand, hid, hfind, hpath, hp, hcat]

/-- Witness for C1: the amended statement applied in `envPane` — where
every `exec` fails, so every dispatch attempt fails — both for the
resolved settings command, which still executes as `true`, and for the
unknown-id clause. -/
theorem C1_witness :
    (executeCommand envPane initState 0 "settings-foo").ok = true ∧
    (executeCommand envPane initState 0 "app-missing").ok = false :=
  ⟨(C1_amended envPane initState 0 "settings-foo" (by decide)).2.2
    { id := "settings-foo", title := "Foo",
      keywords := ["system settings", "preferences", "foo"], iconDataUrl := none,
      category := Category.settings, path := some "Foo" }
    "Foo" (by decide) rfl (by decide) rfl,
   (C1_amended envPane initState 0 "app-missing" (by decide)).1 (by decide)⟩

/-- Claim C10: an id (other than the quit id) that resolves to an entry whose
target is absent or the empty string yields `false` with no dispatch
attempted; and an extension-derived settings entry whose manifest lacks a
`CFBundleIdentifier` is built with the empty string as its target, so it
can never be executed. -/
theorem C10_falsy_target (env : Env) (st : RegState) (now : Nat) (id : String)
    (cmd : CommandInfo) (hid : id ≠ "system-quit-launcher")
    (hfind : (getAvailableCommands env st now).commands.find? (fun c0 => c0.id == id) = some cmd)
    (hpath : cmd.path = none ∨ cmd.path = some "") :
    (executeCommand env st now id).ok = false
    ∧ ∀ (env2 : Env) (sIcon : Option String) (file : String) (seen : List String) (c : Nat)
        (info : PlistInfo) (e : CommandInfo),
        readPlistJson env2 (extDir ++ "/" ++ file) = some info →
        info.CFBundleIdentifier = none →
        (appexItem env2 sIcon file seen c).1 = some e →
        e.path = some "" := by
  constructor
  · rcases hpath with hpath | hpath <;> simp [executeCommand, hid, hfind, hpath]
  · intro env2 sIcon file seen c info e hplist hident happ
    rcases han : appexName env2 file with - | dn
    · simp [appexItem, han] at happ
    · have hinfo : appexNameInfo info = some dn := by
        rw [appexName, hplist] at han
        exact han
      have hdn2 : dn.2 = "" := by
        rw [appexNameInfo_ident info dn hinfo, hident]
        rfl
      have hred : appexItem env2 sIcon file seen c = appexEntry env2 sIcon file dn seen c := by
        simp [appexItem, han]
      rw [hred, appexEntry] at happ
      by_cases hseen : strToLower dn.1 ∈ seen
      · rw [if_pos hseen] at happ
        exact absurd happ (by simp)
      · rw [if_neg hseen] at happ
        obtain rfl : _ = e := Option.some.inj happ
        simpa using congrArg some hdn2

/-- Claim C3, counterexample to the claim as stated: from the reachable
state `st3` (a cache written at time 0), a call at `t = 119999` is a cache
hit, and a second call at `t = 120000` — only 1 ms after the first, far
less than 120000 ms, with no invalidation in between — nevertheless
triggers a full rebuild, because the code anchors the TTL window at the
cache timestamp, not at the previous call. -/
theorem C3_counterexample :
    (getAvailableCommands envAllFail st3 119999).rebuilt = false
    ∧ 120000 - 119999 < 120000
    ∧ (getAvailableCommands envAllFail
        (getAvailableCommands envAllFail st3 119999).state 120000).rebuilt = true := by
  decide

/-- Claim C3, amended: the TTL window is anchored at the cache timestamp.
When the first call itself populated the cache (empty slot), a second call
strictly less than 120000 ms later returns the identical catalog, leaves
the state untouched and does not re-invoke discovery; and whenever 120000
ms or more have elapsed since the stored timestamp, the next call triggers
a full rebuild. -/
theorem C3_amended (env : Env) (st0 : RegState) (t1 t2 : Nat)
    (h1 : st0.cachedCommands = none) (h2 : t1 ≤ t2) (h3 : t2 - t1 < 120000)
    (env2 : Env) (st : RegState) (now : Nat)
    (h4 : (120000 : Int) ≤ (now : Int) - (st.cacheTimestamp : Int)) :
    getAvailableCommands env (getAvailableCommands env st0 t1).state t2 =
      { commands := (getAvailableCommands env st0 t1).commands,
        state := (getAvailableCommands env st0 t1).state, rebuilt := false }
    ∧ (getAvailableCommands env2 st now).rebuilt = true := by
  constructor
  · have h5 : (t2 : Int) - (t1 : Int) < (CACHE_TTL : Int) := by
      have hT : (CACHE_TTL : Int) = 120000 := rfl
      omega
    simp only [getAvailableCommands, h1, rebuildCatalog]
    rw [if_pos h5]
  · have h6 : ¬ ((now : Int) - (st.cacheTimestamp : Int) < (CACHE_TTL : Int)) := by
      have hT : (CACHE_TTL : Int) = 120000 := rfl
      omega
    rcases hst : st.cachedCommands with - | l
    · simp [getAvailableCommands, hst, rebuildCatalog]
    · simp only [getAvailableCommands, hst]
      rw [if_neg h6]
      rfl

/-- Witness for C3: first call at 0 on an empty cache, second call at 100:
identical content, no rebuild; and with the cache stamped 0, a call at
120000 rebuilds. -/
theorem C3_witness :
    getAvailableCommands envAllFail (getAvailableCommands envAllFail initState 0).state 100 =
      { commands := (getAvailableCommands envAllFail initState 0).commands,
        state := (getAvailableCommands envAllFail initState 0).state, rebuilt := false }
    ∧ (getAvailableCommands envAllFail initState 120000).rebuilt = true :=
  C3_amended envAllFail initState 0 100 rfl (by decide) (by decide)
    envAllFail initState 120000 (by decide)

/-- Claim C5: every catalog rebuild stores exactly sorted-apps ++
sorted-settings ++ fixed system entries, each discovery result set sorted
by title; the fixed quit entry is always present; and when every
configured application directory is empty or absent the rebuild yields
zero application entries (and, being a total function, raises nothing). -/
theorem C5_catalog_shape (env : Env) (st : RegState) (now : Nat) :
    (rebuildCatalog env st now).commands =
      sortByTitle (discoverApplications env st.iconCounter).1 ++
        sortByTitle (discoverSystemSettings env (discoverApplications env st.iconCounter).2).1 ++
        systemCommands
    ∧ (sortByTitle (discoverApplications env st.iconCounter).1).Pairwise
        (fun a b => titleLe a b = true)
    ∧ (sortByTitle
        (discoverSystemSettings env (discoverApplications env st.iconCounter).2).1).Pairwise
        (fun a b => titleLe a b = true)
    ∧ quitCommand ∈ (rebuildCatalog env st now).commands
    ∧ ((∀ d ∈ appDirs env, dirEntries env d ".app" = []) →
        (discoverApplications env st.iconCounter).1 = []) := by
  refine ⟨rfl, pairwise_sortBy _ titleLe_total titleLe_trans _,
    pairwise_sortBy _ titleLe_total titleLe_trans _, ?_, ?_⟩
  · show quitCommand ∈
      sortByTitle (discoverApplications env st.iconCounter).1 ++
        sortByTitle (discoverSystemSettings env (discoverApplications env st.iconCounter).2).1 ++
        systemCommands
    exact List.mem_append_right _ (by decide)
  · intro hEmpty
    have ha := hEmpty "/Applications" (by simp [appDirs])
    have hb := hEmpty "/System/Applications" (by simp [appDirs])
    have hc := hEmpty "/System/Applications/Utilities" (by simp [appDirs])
    have hd := hEmpty (joinPath env.home "Applications") (by simp [appDirs])
    have hp : appPairs env = [] := by
      simp [appPairs, appDirs, ha, hb, hc, hd]
    show (foldItems (appItem env) (appPairs env) [] st.iconCounter).1 = []
    rw [hp]
    rfl

/-- Witness for C5: in the world where every directory is absent, the
rebuild yields zero application entries and the catalog still contains the
quit entry. -/
theorem C5_witness :
    (discoverApplications envAllFail initState.iconCounter).1 = []
    ∧ quitCommand ∈ (rebuildCatalog envAllFail initState 0).commands :=
  ⟨(C5_catalog_shape envAllFail initState 0).2.2.2.2 (by decide),
   (C5_catalog_shape envAllFail initState 0).2.2.2.1⟩

theorem strData_append (a b : String) : (a ++ b).data = a.data ++ b.data := by
  cases a; cases b; rfl

theorem strData_inj {a b : String} (h : a.data = b.data) : a = b := by
  cases a; cases b
  exact congrArg String.mk h

/-- The id-derivation is injective up to the slug: equal ids force equal
categories and equal slugs. -/
theorem mkId_inj (c1 c2 : Category) (k1 k2 : String)
    (h : mkId c1 k1 = mkId c2 k2) : c1 = c2 ∧ strSlug k1 = strSlug k2 := by
  have hd := congrArg String.data h
  simp only [mkId] at hd
  rw [strData_append, strData_append] at hd
  cases c1 <;> cases c2 <;>
    simp only [show ("app-" : String).data = ['a', 'p', 'p', '-'] from rfl,
      show ("settings-" : String).data = ['s', 'e', 't', 't', 'i', 'n', 'g', 's', '-'] from rfl,
      show ("system-" : String).data = ['s', 'y', 's', 't', 'e', 'm', '-'] from rfl,
      List.cons_append, List.nil_append, List.cons.injEq, eq_self_iff_true, true_and] at hd
  · exact ⟨rfl, strData_inj hd⟩
  · exact absurd hd.1 (by decide)
  · exact absurd hd.1 (by decide)
  · exact absurd hd.1 (by decide)
  · exact ⟨rfl, strData_inj hd⟩
  · exact absurd hd.1 (by decide)
  · exact absurd hd.1 (by decide)
  · exact absurd hd.1 (by decide)
  · exact ⟨rfl, strData_inj hd⟩

theorem appItem_pure (env : Env) :
    ∀ x seen c e, (appItem env x seen c).1 = some e →
      e.id = mkId e.category (strToLower e.title) := by
  intro x seen c e h
  simp only [appItem] at h
  by_cases hs : strToLower (basenameMinus x.2 ".app") ∈ seen
  · rw [if_pos hs] at h
    exact Option.noConfusion h
  · rw [if_neg hs] at h
    obtain rfl : _ = e := Option.some.inj h
    rfl

theorem appexItem_pure (env : Env) (sIcon : Option String) :
    ∀ x seen c e, (appexItem env sIcon x seen c).1 = some e →
      e.id = mkId e.category (strToLower e.title) := by
  intro x seen c e h
  rcases han : appexName env x with - | dn
  · simp [appexItem, han] at h
  · have hred : appexItem env sIcon x seen c = appexEntry env sIcon x dn seen c := by
      simp [appexItem, han]
    rw [hred, appexEntry] at h
    by_cases hs : strToLower dn.1 ∈ seen
    · rw [if_pos hs] at h
      exact Option.noConfusion h
    · rw [if_neg hs] at h
      obtain rfl : _ = e := Option.some.inj h
      rfl

theorem paneItem_pure (env : Env) (sIcon : Option String) :
    ∀ x seen c e, (paneItem env sIcon x seen c).1 = some e →
      e.id = mkId e.category (strToLower e.title) := by
  intro x seen c e h
  simp only [paneItem] at h
  by_cases hs : strToLower (cleanPaneName (basenameMinus x.2 ".prefPane")) ∈ seen
  · rw [if_pos hs] at h
    exact Option.noConfusion h
  · rw [if_neg hs] at h
    obtain rfl : _ = e := Option.some.inj h
    rfl

theorem settings_pure (env : Env) (c : Nat) :
    ∀ e ∈ (discoverSystemSettings env c).1, e.id = mkId e.category (strToLower e.title) := by
  intro e he
  have he' : e ∈ (sourceAOf env c).1 ++ (sourceBOf env c).1 := he
  rcases List.mem_append.mp he' with h | h
  · exact foldItems_all _ _ (appexItem_pure env _) _ _ _ e h
  · exact foldItems_all _ _ (paneItem_pure env _) _ _ _ e h

/-- Every catalog entry comes from one of the three segments. -/
theorem rebuild_mem (env : Env) (st : RegState) (now : Nat) (e : CommandInfo)
    (he : e ∈ (rebuildCatalog env st now).commands) :
    e ∈ (discoverApplications env st.iconCounter).1 ∨
    e ∈ (discoverSystemSettings env (discoverApplications env st.iconCounter).2).1 ∨
    e ∈ systemCommands := by
  have he' : e ∈
      (sortByTitle (discoverApplications env st.iconCounter).1 ++
        sortByTitle (discoverSystemSettings env (discoverApplications env st.iconCounter).2).1) ++
      systemCommands := he
  rcases List.mem_append.mp he' with h | h
  · rcases List.mem_append.mp h with h | h
    · exact Or.inl ((mem_sortBy _ _ _).mp h)
    · exact Or.inr (Or.inl ((mem_sortBy _ _ _).mp h))
  · exact Or.inr (Or.inr h)

/-- Claim C7, counterexample to the claim as stated: the snapshot built in
`envApps` contains two distinct entries — the applications `A B.app` and
`A.B.app`, with distinct lowercase keys `"a b"` and `"a.b"` — that share
the id `app-a-b`, because slugging collapses every non-alphanumeric run to
a dash; ids are therefore not unique within a snapshot. -/
theorem C7_counterexample :
    (rebuildCatalog envApps initState 0).commands.map CommandInfo.id =
      ["app-a-b", "app-a-b", "system-quit-launcher"]
    ∧ (rebuildCatalog envApps initState 0).commands.map CommandInfo.title =
      ["A B", "A.B", "Quit Launcher"] := by decide

/-- Claim C7, amended: within one snapshot every entry's id is the
deterministic pure function `mkId` of its category and lowercase key; and
two entries share an id only when they share a category and their keys
have the same alphanumeric slug — uniqueness holds exactly up to slug
collisions between distinct keys. -/
theorem C7_amended (env : Env) (st : RegState) (now : Nat) :
    (∀ e ∈ (rebuildCatalog env st now).commands,
      e.id = mkId e.category (strToLower e.title))
    ∧ (∀ e1 ∈ (rebuildCatalog env st now).commands,
        ∀ e2 ∈ (rebuildCatalog env st now).commands,
        e1.id = e2.id → e1.category = e2.category ∧
          strSlug (strToLower e1.title) = strSlug (strToLower e2.title)) := by
  have hpure : ∀ e ∈ (rebuildCatalog env st now).commands,
      e.id = mkId e.category (strToLower e.title) := by
    intro e he
    rcases rebuild_mem env st now e he with h | h | h
    · exact foldItems_all _ _ (appItem_pure env) _ _ _ e h
    · exact settings_pure env _ e h
    · have he2 := List.mem_singleton.mp h
      subst he2
      decide
  refine ⟨hpure, ?_⟩
  intro e1 he1 e2 he2 hEq
  have p1 := hpure e1 he1
  have p2 := hpure e2 he2
  rw [p1, p2] at hEq
  exact mkId_inj _ _ _ _ hEq

/-- Witness for C7: the quit entry of a concrete snapshot has its id
re-derivable as `mkId` of its category and key. -/
theorem C7_witness :
    quitCommand.id = mkId quitCommand.category (strToLower quitCommand.title) :=
  (C7_amended envAllFail initState 0).1 quitCommand (by decide)

/-- Stripping a non-empty extension from a name that ends in it never
leaves an empty name (Node's `basename` keeps a name equal to the
extension intact). -/
theorem basenameMinus_ne_empty (e suf : String) (hsuf : strEndsWith e suf = true)
    (hne : suf ≠ "") : basenameMinus e suf ≠ "" := by
  have hsfx : suf.data <:+ e.data := by
    rw [strEndsWith] at hsuf
    exact List.isSuffixOf_iff_suffix.mp hsuf
  have hlen : suf.data.length ≤ e.data.length := hsfx.length_le
  have hsne : suf.data ≠ [] := fun hEq => hne (strData_inj (by simpa using hEq))
  have hspos : 0 < suf.data.length := List.length_pos.mpr hsne
  rw [basenameMinus]
  by_cases hc : strEndsWith e suf ∧ suf.data.length < e.data.length
  · rw [if_pos hc]
    intro hEq
    have h2 : e.data.take (e.data.length - suf.data.length) = [] :=
      congrArg String.data hEq
    rcases List.take_eq_nil_iff.mp h2 with h3 | h3
    · omega
    · rw [h3] at hc
      simp at hc
  · rw [if_neg hc]
    intro hEq
    have h2 : e.data = [] := congrArg String.data hEq
    rw [h2] at hlen
    simp only [List.length_nil] at hlen
    omega

/-- Claim C6, counterexample to the claim as stated: `envNoManifest` offers
the extension-style settings bundle `BarSettings.appex`, whose manifest is
missing; discovery yields no entry for it at all — the bundle is dropped,
contradicting "discovery still yields a valid entry for it". -/
theorem C6_counterexample :
    envNoManifest.existsPath (extDir ++ "/BarSettings.appex/Contents/Info.plist") = false
    ∧ allAppexFiles envNoManifest = ["BarSettings.appex"]
    ∧ (discoverSystemSettings envNoManifest 0).1 = [] := by decide

/-- Claim C6, amended: a missing or unreadable manifest never aborts a
discovery batch, but which entry survives depends on the source.  An
application bundle never needs its manifest: its item always yields an
entry with non-empty id and non-empty title, and the icon is absent
whenever the icon pipeline yields nothing.  An extension-style settings
bundle whose manifest cannot be read is silently dropped (its item is a
no-op), and the loop continues past any skipped item. -/
theorem C6_amended :
    (∀ (env : Env) (d e : String) (seen : List String) (c : Nat),
      strEndsWith e ".app" = true →
      strToLower (basenameMinus e ".app") ∉ seen →
      ∃ ent, (appItem env (d, e) seen c).1 = some ent ∧ ent.id ≠ "" ∧ ent.title ≠ "" ∧
        ((getIconDataUrl env c (d ++ "/" ++ e)).1 = none → ent.iconDataUrl = none))
    ∧ (∀ (env : Env) (sIcon : Option String) (file : String) (seen : List String) (c : Nat),
        readPlistJson env (extDir ++ "/" ++ file) = none →
        appexItem env sIcon file seen c = (none, seen, c))
    ∧ (∀ (σ : Type) (f : σ → List String → Nat → Option CommandInfo × List String × Nat)
        (x : σ) (xs : List σ) (seen : List String) (c : Nat),
        f x seen c = (none, seen, c) →
        foldItems f (x :: xs) seen c = foldItems f xs seen c) := by
  refine ⟨?_, ?_, ?_⟩
  · intro env d e seen c hsuf hseen
    refine ⟨{ id := "app-" ++ strSlug (strToLower (basenameMinus e ".app")),
              title := basenameMinus e ".app",
              keywords := [strToLower (basenameMinus e ".app")],
              iconDataUrl := (getIconDataUrl env c (d ++ "/" ++ e)).1,
              category := Category.app, path := some (d ++ "/" ++ e) }, ?_, ?_, ?_, ?_⟩
    · simp only [appItem]
      rw [if_neg hseen]
    · intro hEq
      have h2 : ("app-" ++ strSlug (strToLower (basenameMinus e ".app"))).data = [] :=
        congrArg String.data hEq
      rw [strData_append] at h2
      simp at h2
    · exact basenameMinus_ne_empty e ".app" hsuf (by decide)
    · exact fun h => h
  · intro env sIcon file seen c h
    simp [appexItem, appexName, h]
  · intro σ f x xs seen c h
    exact foldItems_skip f x xs seen c h

/-- Any image the priority-name loop produces came out of an `icns`
conversion. -/
theorem prioLoop_some (env : Env) (rd : String) (files : List String) :
    ∀ (names : List String) (c0 : Nat) (r : String) (c2 : Nat),
      prioLoop env rd files c0 names = (some r, c2) →
      ∃ p c0' c1', icnsToPngDataUrl env c0' p = (some r, c1')
  | [], c0, r, c2, h => Option.noConfusion (congrArg Prod.fst h)
  | name :: rest, c0, r, c2, h => by
    simp only [prioLoop] at h
    by_cases hc : files.contains name = true
    · rw [if_pos hc] at h
      rcases hi : icnsToPngDataUrl env c0 (rd ++ "/" ++ name) with ⟨ri, ci⟩
      simp only [hi] at h
      rcases ri with - | ri
      · exact prioLoop_some env rd files rest ci r c2 h
      · have hr : ri = r := Option.some.inj (congrArg Prod.fst h)
        subst hr
        exact ⟨rd ++ "/" ++ name, c0, ci, hi⟩
    · rw [if_neg hc] at h
      exact prioLoop_some env rd files rest c0 r c2 h

/-- Any image step 1 produces came out of an `icns` conversion. -/
theorem iconStep1_some (env : Env) (c : Nat) (bp : String) (r : String) (c1 : Nat)
    (h : iconStep1 env c bp = (some r, c1)) :
    ∃ p c0 c1', icnsToPngDataUrl env c0 p = (some r, c1') := by
  rw [iconStep1] at h
  dsimp only at h
  repeat' split at h
  all_goals
    first
      | exact Option.noConfusion (congrArg Prod.fst h)
      | exact ⟨_, _, _, h⟩

/-- Any image step 2 produces came out of an `icns` conversion. -/
theorem iconStep2_some (env : Env) (c : Nat) (bp : String) (r : String) (c2 : Nat)
    (h : iconStep2 env c bp = (some r, c2)) :
    ∃ p c0 c1', icnsToPngDataUrl env c0 p = (some r, c1') := by
  rw [iconStep2] at h
  try dsimp only at h
  by_cases hex : env.existsPath (bp ++ "/Contents/Resources") = true
  · rw [if_pos hex] at h
    rcases hrd : env.readdir (bp ++ "/Contents/Resources") with - | files
    · simp only [hrd] at h
      exact Option.noConfusion (congrArg Prod.fst h)
    · simp only [hrd] at h
      rcases hpl : prioLoop env (bp ++ "/Contents/Resources") files c priorityNames
        with ⟨rp, cp⟩
      simp only [hpl] at h
      rcases rp with - | rp
      · rcases hf : files.find? (fun f => strEndsWith f ".icns") with - | f
        · simp only [hf] at h
          exact Option.noConfusion (congrArg Prod.fst h)
        · simp only [hf] at h
          exact ⟨_, _, _, h⟩
      · have hr : rp = r := Option.some.inj (congrArg Prod.fst h)
        subst hr
        exact prioLoop_some env (bp ++ "/Contents/Resources") files priorityNames c rp cp hpl
  · rw [if_neg hex] at h
    exact Option.noConfusion (congrArg Prod.fst h)

/-- Claim C8: the icon extractor returns an encoded image only when some
fallback step fully succeeds — an `icns` conversion returns an image only
when `sips` succeeded, the temporary file was read and removed, and the
converted output exceeds 100 bytes (near-empty output is rejected) —
otherwise the result came from the OS file-icon resolver; and when every
external invocation fails and the resolver yields nothing, the extractor
returns `none` rather than raising (it is a total function). -/
theorem C8_icon_fallback (env : Env) :
    (∀ (c : Nat) (p url : String) (c1 : Nat), icnsToPngDataUrl env c p = (some url, c1) →
      env.execOk (sipsCmd env (c + 1) p) = true ∧
      env.unlinkOk (tmpPngPath env (c + 1)) = true ∧
      ∃ buf, env.readFile (tmpPngPath env (c + 1)) = some buf ∧ 100 < buf.length)
    ∧ (∀ (c : Nat) (bp : String), (∀ s, env.execOk s = false) → env.getFileIcon bp = none →
        (getIconDataUrl env c bp).1 = none)
    ∧ (∀ (c : Nat) (bp url : String), (getIconDataUrl env c bp).1 = some url →
        (∃ p c0 c1, icnsToPngDataUrl env c0 p = (some url, c1)) ∨
        env.getFileIcon bp = some url) := by
  refine ⟨?_, ?_, ?_⟩
  · intro c p url c1 h
    rw [icnsToPngDataUrl] at h
    try dsimp only at h
    by_cases he : env.execOk (sipsCmd env (c + 1) p) = true
    · rw [if_pos he] at h
      rcases hr : env.readFile (tmpPngPath env (c + 1)) with - | buf
      · simp only [hr] at h
        exact Option.noConfusion (congrArg Prod.fst h)
      · simp only [hr] at h
        by_cases hu : env.unlinkOk (tmpPngPath env (c + 1)) = true
        · rw [if_pos hu] at h
          by_cases hl : buf.length > 100
          · exact ⟨he, hu, buf, rfl, hl⟩
          · rw [if_neg hl] at h
            exact Option.noConfusion (congrArg Prod.fst h)
        · rw [if_neg hu] at h
          exact Option.noConfusion (congrArg Prod.fst h)
    · rw [if_neg he] at h
      exact Option.noConfusion (congrArg Prod.fst h)
  · intro c bp hexec hicon
    have hic : ∀ (c0 : Nat) (p : String), (icnsToPngDataUrl env c0 p).1 = none := by
      intro c0 p
      simp [icnsToPngDataUrl, hexec]
    have hloop : ∀ (names : List String) (rd : String) (files : List String) (c0 : Nat),
        (prioLoop env rd files c0 names).1 = none := by
      intro names
      induction names with
      | nil => intro rd files c0; simp [prioLoop]
      | cons n ns ih =>
        intro rd files c0
        simp only [prioLoop]
        by_cases hc2 : files.contains n = true
        · rw [if_pos hc2]
          rcases hi : icnsToPngDataUrl env c0 (rd ++ "/" ++ n) with ⟨ri, ci⟩
          have hrn : ri = none := by
            have := hic c0 (rd ++ "/" ++ n)
            rw [hi] at this
            exact this
          subst hrn
          simp only [hi]
          exact ih rd files ci
        · rw [if_neg hc2]
          exact ih rd files c0
    have hstep1 : ∀ c0, (iconStep1 env c0 bp).1 = none := by
      intro c0
      simp [iconStep1, hexec]
    have hstep2 : ∀ c0, (iconStep2 env c0 bp).1 = none := by
      intro c0
      rw [iconStep2]
      try dsimp only
      by_cases hex : env.existsPath (bp ++ "/Contents/Resources") = true
      · rw [if_pos hex]
        rcases hrd : env.readdir (bp ++ "/Contents/Resources") with - | files
        · simp only [hrd]
        · simp only [hrd]
          rcases hpl : prioLoop env (bp ++ "/Contents/Resources") files c0 priorityNames
            with ⟨rp, cp⟩
          have hrp : rp = none := by
            have := hloop priorityNames (bp ++ "/Contents/Resources") files c0
            rw [hpl] at this
            exact this
          subst hrp
          simp only [hpl]
          rcases hf : files.find? (fun f => strEndsWith f ".icns") with - | f
          · simp only [hf]
          · simp only [hf]
            exact hic cp _
      · rw [if_neg hex]
    rw [getIconDataUrl]
    rcases h1 : iconStep1 env c bp with ⟨r1, c1⟩
    have hr1 : r1 = none := by
      have := hstep1 c
      rw [h1] at this
      exact this
    subst hr1
    simp only [h1]
    rcases h2 : iconStep2 env c1 bp with ⟨r2, c2⟩
    have hr2 : r2 = none := by
      have := hstep2 c1
      rw [h2] at this
      exact this
    subst hr2
    simp only [h2, hicon]
  · intro c bp url h
    rw [getIconDataUrl] at h
    rcases h1 : iconStep1 env c bp with ⟨r1, c1⟩
    simp only [h1] at h
    rcases r1 with - | r1
    · rcases h2 : iconStep2 env c1 bp with ⟨r2, c2⟩
      simp only [h2] at h
      rcases r2 with - | r2
      · rcases h3 : env.getFileIcon bp with - | u
        · simp only [h3] at h
          exact Option.noConfusion h
        · simp only [h3] at h
          right
          exact congrArg some (Option.some.inj h)
      · left
        have hr : r2 = url := Option.some.inj h
        subst hr
        exact iconStep2_some env c1 bp r2 c2 h2
    · left
      have hr : r1 = url := Option.some.inj h
      subst hr
      exact iconStep1_some env c bp r1 c1 h1

/-- Witness for C8: in the all-failing world, every step fails and the
extractor returns nothing. -/
theorem C8_witness : (getIconDataUrl envAllFail 0 "/Applications/Foo.app").1 = none :=
  (C8_icon_fallback envAllFail).2.1 0 "/Applications/Foo.app" (fun _ => rfl) rfl

/-- Witness for C6: in the all-failing world, the application bundle
`Foo.app` (whose manifest does not exist and whose icon pipeline yields
nothing) still yields an entry with non-empty id and title and no icon. -/
theorem C6_witness :
    ∃ ent, (appItem envAllFail ("/Applications", "Foo.app") [] 0).1 = some ent ∧
      ent.id ≠ "" ∧ ent.title ≠ "" ∧
      ((getIconDataUrl envAllFail 0 ("/Applications" ++ "/" ++ "Foo.app")).1 = none →
        ent.iconDataUrl = none) :=
  C6_amended.1 envAllFail "/Applications" "Foo.app" [] 0 (by decide) (by decide)

/-- Witness for C10: in `envRich` the entry `settings-foo` was built from a
manifest without a bundle identifier, its target is `""`, and executing it
returns `false`. -/
theorem C10_witness :
    (executeCommand envRich initState 0 "settings-foo").ok = false :=
  (C10_falsy_target envRich initState 0 "settings-foo"
    { id := "settings-foo", title := "Foo",
      keywords := ["system settings", "preferences", "foo"], iconDataUrl := none,
      category := Category.settings, path := some "" }
    (by decide) (by decide) (Or.inr rfl)).1

end SuperCmd
